import Mathlib

/-!
Shallow embedding of the aggregation pipeline of `src/furniture-dashboard.tsx`
(the `loadData` function of the `Dashboard` component).

The pipeline receives the rows parsed from the CSV file and produces four
derived structures with lodash:

* `yearlyStats`   : `_.chain(data).groupBy(row => new Date(row['Order Date']).getFullYear()).map(...)`,
                    followed by an in-place year-over-year growth pass;
* `totalMetrics`  : whole-dataset sums, count and `sum / length`;
* `subCategoryStats` : `_.chain(data).groupBy('Sub-Category').map(...).orderBy(['value'], ['desc'])`;
* `subCategoryTrendsData` : outer groupBy year, inner groupBy sub-category,
                    each row a sparse map from sub-category name to summed sales.

Modelling decisions, all taken from the JavaScript semantics of the source:

* Numbers are idealised as rationals (`ℚ`).  The only operations whose
  JavaScript result can be non-finite are the divisions, so a division
  result is a `JNum`: a finite rational, `NaN`, `+Infinity` or `-Infinity`,
  following IEEE rules (`0/0 = NaN`, `x/0 = ±Infinity` for `x ≠ 0`).
* `new Date(s).getFullYear()` is the external `Date` library; a record
  carries its result directly as `orderDateYear : Option Int`, where `none`
  is the `NaN` produced by an unparseable date string.
* lodash `groupBy` builds a plain JavaScript object.  Its keys are strings;
  iteration (`Object.keys`, used by `_.map` and by object spread) lists
  keys that are canonical array indices (canonical decimal strings of
  integers `n` with `0 ≤ n < 2^32 - 1`) first, in ascending numeric order,
  and all other keys afterwards in insertion (first-seen) order.  `jsKeys`
  reproduces exactly this order; the `idx` parameter tells which keys are
  array-index-like (for year keys: non-negative years below `2^32 - 1`;
  the string keys `"NaN"` and `"-5"` are not array indices).
* `parseInt` applied to a year key returns the year back (`NaN` for the
  key `"NaN"`), so the `year` field keeps the type `Option Int`.
* lodash `orderBy` is a stable sort; it is modelled with
  `List.insertionSort`, which is stable — the output of a stable sort is
  uniquely determined by the comparator, so the model list is exactly the
  lodash one.
* A trend row is modelled as the year together with the association list
  of its sub-category keys in object-key order, mirroring
  `{ year: parseInt(year), ..._.mapValues(subCategories, ...) }`.
-/

/-- A JavaScript number that may be non-finite: the result type of the
divisions in the pipeline (`0/0 = NaN`, `x/0 = ±∞` for `x ≠ 0`). -/
inductive JNum where
  | num (q : ℚ)
  | nan
  | posInf
  | negInf
deriving DecidableEq, Repr

/-- JavaScript division on (idealised) finite operands. -/
def jdiv (a b : ℚ) : JNum :=
  if b = 0 then
    if a = 0 then JNum.nan
    else if 0 < a then JNum.posInf
    else JNum.negInf
  else JNum.num (a / b)

/-- Multiplication by the literal `100` in `((a - b) / b) * 100`
(a positive finite constant, so infinities and `NaN` are preserved). -/
def jmul100 : JNum → JNum
  | JNum.num q => JNum.num (q * 100)
  | JNum.nan => JNum.nan
  | JNum.posInf => JNum.posInf
  | JNum.negInf => JNum.negInf

/-- `((cur - prev) / prev) * 100`, exactly the growth expression of
lines 98–99 of the source. -/
def growthOf (cur prev : ℚ) : JNum := jmul100 (jdiv (cur - prev) prev)

/-- One parsed CSV row.  `orderDateYear` is the value of
`new Date(row['Order Date']).getFullYear()` (`none` encodes the `NaN`
of an invalid date); `sales`, `profit` and `subCategory` are the
`Sales`, `Profit` and `Sub-Category` columns. -/
structure SaleRecord where
  orderDateYear : Option Int
  sales : ℚ
  profit : ℚ
  subCategory : String
deriving DecidableEq, Repr

/-- `_.sumBy(l, 'Sales')`. -/
def sumSales (l : List SaleRecord) : ℚ := (l.map SaleRecord.sales).sum

/-- `_.sumBy(l, 'Profit')`. -/
def sumProfit (l : List SaleRecord) : ℚ := (l.map SaleRecord.profit).sum

/-- The distinct values of a list in first-seen order: the insertion
order of the keys of the object built by lodash `groupBy`. -/
def firstSeen {κ : Type} [DecidableEq κ] : List κ → List κ
  | [] => []
  | k :: ks => k :: (firstSeen ks).filter (fun x => x ≠ k)

/-- JavaScript object-key enumeration order for the keys of `l`:
array-index-like keys (those with `idx k = some n`, `n` the numeric value
of the canonical array-index string) come first in ascending numeric
order, then the remaining keys in first-seen order. -/
def jsKeys {κ : Type} [DecidableEq κ] (l : List κ) (idx : κ → Option Nat) : List κ :=
  ((firstSeen l).filter (fun k => (idx k).isSome)).insertionSort
      (fun a b => (idx a).getD 0 ≤ (idx b).getD 0)
    ++ (firstSeen l).filter (fun k => (idx k).isNone)

/-- lodash `_.groupBy` followed by `_.map` over the resulting object:
the group of each key, keys in JavaScript object enumeration order. -/
def jsGroupBy {α κ : Type} [DecidableEq κ] (l : List α) (k : α → κ)
    (idx : κ → Option Nat) : List (κ × List α) :=
  (jsKeys (l.map k) idx).map (fun key => (key, l.filter (fun a => decide (k a = key))))

/-- Which year keys are array-index-like once stringified: `String(y)` is
a canonical array index exactly for `0 ≤ y < 2^32 - 1` (the key `"NaN"`
of an invalid date and keys of negative years are plain string keys). -/
def yearIdx : Option Int → Option Nat
  | some y => if 0 ≤ y ∧ y < (2 ^ 32 - 1 : Int) then some y.toNat else none
  | none => none

/-- The numeric value of a decimal digit string (`'0'` has code 48). -/
def decValue (cs : List Char) : Nat :=
  cs.foldl (fun acc c => acc * 10 + (c.toNat - 48)) 0

/-- Whether a character list is a canonical decimal integer string:
`"0"`, or a nonzero digit followed by digits (no leading zero, no sign,
nothing but digits). -/
def isCanonicalDec : List Char → Bool
  | [] => false
  | ['0'] => true
  | c :: rest => c.isDigit && decide (c ≠ '0') && rest.all Char.isDigit

/-- Which sub-category names are array-index-like keys: the canonical
decimal strings of integers below `2^32 - 1`. -/
def strIdx (s : String) : Option Nat :=
  if isCanonicalDec s.data && decide (decValue s.data < 2 ^ 32 - 1) then
    some (decValue s.data)
  else none

/-- The grouping key of the yearly builders:
`new Date(row['Order Date']).getFullYear()`. -/
def yearKey (r : SaleRecord) : Option Int := r.orderDateYear

/-- The `YearlyData` interface of the source (lines 23–31). -/
structure YearlyData where
  year : Option Int
  sales : ℚ
  profit : ℚ
  orders : Nat
  avgOrderValue : JNum
  salesGrowth : JNum
  profitGrowth : JNum
deriving DecidableEq, Repr

/-- The `TotalMetrics` interface of the source (lines 33–38). -/
structure TotalMetrics where
  totalSales : ℚ
  totalProfit : ℚ
  totalOrders : Nat
  avgOrderValue : JNum
deriving DecidableEq, Repr

/-- The `SubCategoryData` interface of the source (lines 40–45). -/
structure SubCategoryData where
  name : String
  value : ℚ
  profit : ℚ
  orders : Nat
deriving DecidableEq, Repr

/-- One row of `subCategoryTrendsData`: the year and the sparse
sub-category → summed-sales mapping, keys in object enumeration order. -/
structure TrendRow where
  year : Option Int
  entries : List (String × ℚ)
deriving DecidableEq, Repr

/-- Lines 82–93: group by order year and map each group to its statistics;
`parseInt` of the stringified key gives the year back (or `NaN`), both
growth fields start at `0`. -/
def yearlyStatsBase (data : List SaleRecord) : List YearlyData :=
  (jsGroupBy data yearKey yearIdx).map (fun g =>
    { year := g.1
      sales := sumSales g.2
      profit := sumProfit g.2
      orders := g.2.length
      avgOrderValue := jdiv (sumSales g.2) (g.2.length : ℚ)
      salesGrowth := JNum.num 0
      profitGrowth := JNum.num 0 })

/-- The body of the `forEach` of lines 96–101 for the elements after the
first: each element's growth fields are recomputed from the previous
element of the array. -/
def withGrowthAux : YearlyData → List YearlyData → List YearlyData
  | _, [] => []
  | prev, c :: rest =>
      let c' : YearlyData :=
        { c with
          salesGrowth := growthOf c.sales prev.sales
          profitGrowth := growthOf c.profit prev.profit }
      c' :: withGrowthAux c' rest

/-- Lines 96–101: the year-over-year growth pass (`index = 0` untouched,
every later index updated from index − 1). -/
def withGrowth : List YearlyData → List YearlyData
  | [] => []
  | h :: t => h :: withGrowthAux h t

/-- The value stored in the `yearlyData` state: the grouped statistics
after the growth pass. -/
def yearlyData (data : List SaleRecord) : List YearlyData :=
  withGrowth (yearlyStatsBase data)

/-- Lines 106–111: the whole-dataset metrics
(`avgOrderValue = _.sumBy(data, 'Sales') / data.length`). -/
def totalMetrics (data : List SaleRecord) : TotalMetrics :=
  { totalSales := sumSales data
    totalProfit := sumProfit data
    totalOrders := data.length
    avgOrderValue := jdiv (sumSales data) (data.length : ℚ) }

/-- Lines 114–121 before the `orderBy`: the per-sub-category groups in
object enumeration order. -/
def subGroups (data : List SaleRecord) : List SubCategoryData :=
  (jsGroupBy data SaleRecord.subCategory strIdx).map (fun g =>
    { name := g.1
      value := sumSales g.2
      profit := sumProfit g.2
      orders := g.2.length })

/-- Line 122: `.orderBy(['value'], ['desc'])`, a stable descending sort
by total sales. -/
def subCategoryStats (data : List SaleRecord) : List SubCategoryData :=
  (subGroups data).insertionSort (fun a b => b.value ≤ a.value)

/-- Lines 128–137: outer group by year, inner group by sub-category,
each row the year with the summed sales of that year's sub-categories. -/
def subCategoryTrendsData (data : List SaleRecord) : List TrendRow :=
  (jsGroupBy data yearKey yearIdx).map (fun g =>
    { year := g.1
      entries := (jsGroupBy g.2 SaleRecord.subCategory strIdx).map
        (fun sg => (sg.1, sumSales sg.2)) })

/-- Strict ascending order on year values; `NaN` years compare with
nothing. -/
def yrAsc : Option Int → Option Int → Bool
  | some a, some b => decide (a < b)
  | _, _ => false

lemma mem_firstSeen {κ : Type} [DecidableEq κ] (l : List κ) (x : κ) :
    x ∈ firstSeen l ↔ x ∈ l := by
  induction l with
  | nil => simp [firstSeen]
  | cons k ks ih =>
      rw [firstSeen]
      by_cases hx : x = k
      · subst hx; simp
      · simp only [List.mem_cons, List.mem_filter, ih]
        constructor
        · rintro (rfl | ⟨hmem, _⟩)
          · exact Or.inl rfl
          · exact Or.inr hmem
        · rintro (rfl | hmem)
          · exact Or.inl rfl
          · exact Or.inr ⟨hmem, by simpa using hx⟩

lemma nodup_firstSeen {κ : Type} [DecidableEq κ] (l : List κ) :
    (firstSeen l).Nodup := by
  induction l with
  | nil => simp [firstSeen]
  | cons k ks ih =>
      rw [firstSeen]
      refine List.nodup_cons.2 ⟨?_, ih.filter _⟩
      intro hk
      rw [List.mem_filter] at hk
      simp at hk

lemma mem_jsKeys {κ : Type} [DecidableEq κ] (l : List κ) (idx : κ → Option Nat) (x : κ) :
    x ∈ jsKeys l idx ↔ x ∈ l := by
  unfold jsKeys
  rw [List.mem_append, List.mem_insertionSort]
  simp only [List.mem_filter, mem_firstSeen]
  constructor
  · rintro (⟨h, _⟩ | ⟨h, _⟩) <;> exact h
  · intro h
    by_cases hs : (idx x).isSome
    · exact Or.inl ⟨h, hs⟩
    · exact Or.inr ⟨h, by simpa [Option.isNone_iff_eq_none, Option.isSome_iff_ne_none] using hs⟩

lemma nodup_jsKeys {κ : Type} [DecidableEq κ] (l : List κ) (idx : κ → Option Nat) :
    (jsKeys l idx).Nodup := by
  unfold jsKeys
  rw [List.nodup_append]
  refine ⟨((List.perm_insertionSort _ _).nodup_iff).2 ((nodup_firstSeen l).filter _),
    (nodup_firstSeen l).filter _, ?_⟩
  intro a ha hb
  rw [List.mem_insertionSort, List.mem_filter] at ha
  rw [List.mem_filter] at hb
  rcases ha with ⟨_, hsome⟩
  rcases hb with ⟨_, hnone⟩
  simp only [Option.isSome_iff_exists] at hsome
  simp only [Option.isNone_iff_eq_none] at hnone
  rcases hsome with ⟨n, hn⟩
  rw [hn] at hnone
  cases hnone

lemma mem_jsGroupBy {α κ : Type} [DecidableEq κ] {l : List α} {k : α → κ}
    {idx : κ → Option Nat} {p : κ × List α} (hp : p ∈ jsGroupBy l k idx) :
    p.1 ∈ l.map k ∧ p.2 = l.filter (fun a => decide (k a = p.1)) := by
  unfold jsGroupBy at hp
  rcases List.mem_map.1 hp with ⟨key, hkey, rfl⟩
  exact ⟨(mem_jsKeys _ _ _).1 hkey, rfl⟩

lemma jsGroupBy_group_ne_nil {α κ : Type} [DecidableEq κ] {l : List α} {k : α → κ}
    {idx : κ → Option Nat} {p : κ × List α} (hp : p ∈ jsGroupBy l k idx) :
    p.2 ≠ [] := by
  rcases mem_jsGroupBy hp with ⟨hmem, hgrp⟩
  rcases List.mem_map.1 hmem with ⟨a, ha, hka⟩
  intro hnil
  rw [hgrp, List.filter_eq_nil_iff] at hnil
  exact hnil a ha (by simp [hka])

/-- The fields of a yearly entry that the growth pass never touches. -/
def stripG (y : YearlyData) : Option Int × ℚ × ℚ × Nat × JNum :=
  (y.year, y.sales, y.profit, y.orders, y.avgOrderValue)

lemma map_stripG_withGrowthAux (p : YearlyData) (t : List YearlyData) :
    (withGrowthAux p t).map stripG = t.map stripG := by
  induction t generalizing p with
  | nil => rfl
  | cons c rest ih => simp [withGrowthAux, stripG, ih]

lemma map_stripG_withGrowth (l : List YearlyData) :
    (withGrowth l).map stripG = l.map stripG := by
  cases l with
  | nil => rfl
  | cons h t => simp [withGrowth, map_stripG_withGrowthAux]

/-- Each entry after the first carries exactly the growth values computed
from its predecessor in the array. -/
def Rgrow (p c : YearlyData) : Prop :=
  c.salesGrowth = growthOf c.sales p.sales ∧ c.profitGrowth = growthOf c.profit p.profit

lemma chain_withGrowthAux (t : List YearlyData) (p : YearlyData) :
    List.Chain' Rgrow (p :: withGrowthAux p t) := by
  induction t generalizing p with
  | nil => simp [withGrowthAux]
  | cons c rest ih =>
      rw [withGrowthAux]
      exact List.chain'_cons.2 ⟨⟨rfl, rfl⟩, ih _⟩

lemma chain_Rgrow_withGrowth (l : List YearlyData) :
    List.Chain' Rgrow (withGrowth l) := by
  cases l with
  | nil => simp [withGrowth]
  | cons h t => exact chain_withGrowthAux t h

lemma head?_withGrowth (l : List YearlyData) :
    (withGrowth l).head? = l.head? := by
  cases l with
  | nil => rfl
  | cons h t => rfl

lemma mem_withGrowth_stripG {l : List YearlyData} {y : YearlyData}
    (hy : y ∈ withGrowth l) : ∃ y₀ ∈ l, stripG y₀ = stripG y := by
  have hmem : stripG y ∈ (withGrowth l).map stripG := List.mem_map.2 ⟨y, hy, rfl⟩
  rw [map_stripG_withGrowth] at hmem
  exact List.mem_map.1 hmem

lemma sum_map_filter_split {α : Type} (p : α → Bool) (f : α → ℚ) :
    ∀ l : List α,
      ((l.filter p).map f).sum + ((l.filter (fun a => !p a)).map f).sum = (l.map f).sum := by
  intro l
  induction l with
  | nil => simp
  | cons a t ih =>
      by_cases ha : p a
      · simp [List.filter_cons, ha, ← ih]
        try ring
      · simp [List.filter_cons, ha, ← ih]
        try ring

lemma sum_over_groups {α κ : Type} [DecidableEq κ] (k : α → κ) (f : α → ℚ) :
    ∀ (keys : List κ) (l : List α), keys.Nodup → (∀ a ∈ l, k a ∈ keys) →
      (keys.map (fun key => ((l.filter (fun a => decide (k a = key))).map f).sum)).sum
        = (l.map f).sum := by
  intro keys
  induction keys with
  | nil =>
      intro l _ hcov
      cases l with
      | nil => simp
      | cons a t => exact absurd (hcov a (by simp)) (by simp)
  | cons key rest ih =>
      intro l hnd hcov
      rw [List.nodup_cons] at hnd
      have hsplit := sum_map_filter_split (fun a => decide (k a = key)) f l
      have hrest :
          (rest.map (fun key' => ((l.filter (fun a => decide (k a = key'))).map f).sum)).sum
            = ((l.filter (fun a => !decide (k a = key))).map f).sum := by
        have hcongr : ∀ key' ∈ rest,
            l.filter (fun a => decide (k a = key'))
              = (l.filter (fun a => !decide (k a = key))).filter
                  (fun a => decide (k a = key')) := by
          intro key' hk'
          rw [List.filter_filter]
          refine (List.filter_congr ?_).symm
          intro a _
          by_cases hka : k a = key'
          · have hne : key' ≠ key := fun h => hnd.1 (h ▸ hk')
            simp [hka, hne]
          · simp [hka]
        have hih := ih (l.filter (fun a => !decide (k a = key))) hnd.2 ?_
        · rw [← hih]
          refine congrArg List.sum ?_
          exact List.map_congr_left (fun key' hk' => by rw [hcongr key' hk'])
        · intro a ha
          rw [List.mem_filter] at ha
          have hmem := hcov a ha.1
          rcases List.mem_cons.1 hmem with h | h
          · exfalso
            simp [h] at ha
          · exact h
      simp only [List.map_cons, List.sum_cons, hrest]
      exact hsplit

lemma jsKeys_all_index {κ : Type} [DecidableEq κ] (l : List κ) (idx : κ → Option Nat)
    (h : ∀ x ∈ l, (idx x).isSome) :
    jsKeys l idx
      = (firstSeen l).insertionSort (fun a b => (idx a).getD 0 ≤ (idx b).getD 0) := by
  unfold jsKeys
  have h1 : (firstSeen l).filter (fun k => (idx k).isSome) = firstSeen l :=
    List.filter_eq_self.2 (fun a ha => h a ((mem_firstSeen l a).1 ha))
  have h2 : (firstSeen l).filter (fun k => (idx k).isNone) = [] :=
    List.filter_eq_nil_iff.2 (fun a ha => by
      have hs := h a ((mem_firstSeen l a).1 ha)
      cases hidx : idx a with
      | none => rw [hidx] at hs; cases hs
      | some n => simp [hidx])
  rw [h1, h2, List.append_nil]

lemma jsKeys_all_strings {κ : Type} [DecidableEq κ] (l : List κ) (idx : κ → Option Nat)
    (h : ∀ x ∈ l, idx x = none) :
    jsKeys l idx = firstSeen l := by
  unfold jsKeys
  have h1 : (firstSeen l).filter (fun k => (idx k).isSome) = [] :=
    List.filter_eq_nil_iff.2 (fun a ha => by
      simp [h a ((mem_firstSeen l a).1 ha)])
  have h2 : (firstSeen l).filter (fun k => (idx k).isNone) = firstSeen l :=
    List.filter_eq_self.2 (fun a ha => by
      simp [h a ((mem_firstSeen l a).1 ha)])
  rw [h1, h2]
  rfl

lemma yearIdx_isSome {a : Option Int} (h : (yearIdx a).isSome) :
    ∃ y, a = some y ∧ 0 ≤ y ∧ y < (2 ^ 32 - 1 : Int) ∧ (yearIdx a).getD 0 = y.toNat := by
  cases a with
  | none => simp [yearIdx] at h
  | some y =>
      refine ⟨y, rfl, ?_⟩
      by_cases hc : 0 ≤ y ∧ y < (2 ^ 32 - 1 : Int)
      · refine ⟨hc.1, hc.2, ?_⟩
        simp only [yearIdx, if_pos hc, Option.getD_some]
      · simp [yearIdx, hc] at h
        exact absurd ⟨h.1, by omega⟩ hc

lemma chain_yrAsc_jsKeys (l : List (Option Int))
    (h : ∀ x ∈ l, (yearIdx x).isSome) :
    List.Chain' (fun a b => yrAsc a b = true) (jsKeys l yearIdx) := by
  rw [jsKeys_all_index l yearIdx h]
  haveI : IsTotal (Option Int) (fun a b => (yearIdx a).getD 0 ≤ (yearIdx b).getD 0) :=
    ⟨fun a b => Nat.le_total _ _⟩
  haveI : IsTrans (Option Int) (fun a b => (yearIdx a).getD 0 ≤ (yearIdx b).getD 0) :=
    ⟨fun a b c hab hbc => le_trans hab hbc⟩
  have hsorted := List.sorted_insertionSort
    (fun a b => (yearIdx a).getD 0 ≤ (yearIdx b).getD 0) (firstSeen l)
  have hnodup : ((firstSeen l).insertionSort
      (fun a b => (yearIdx a).getD 0 ≤ (yearIdx b).getD 0)).Nodup :=
    ((List.perm_insertionSort _ _).nodup_iff).2 (nodup_firstSeen l)
  refine ((hsorted.and hnodup).imp_of_mem ?_).chain'
  intro a b ha hb hr
  have hal : a ∈ l := (mem_firstSeen l a).1 ((List.mem_insertionSort _).1 ha)
  have hbl : b ∈ l := (mem_firstSeen l b).1 ((List.mem_insertionSort _).1 hb)
  rcases yearIdx_isSome (h a hal) with ⟨ya, rfl, hya0, _, hga⟩
  rcases yearIdx_isSome (h b hbl) with ⟨yb, rfl, hyb0, _, hgb⟩
  rcases hr with ⟨hle, hne⟩
  rw [hga, hgb] at hle
  have hyne : ya ≠ yb := fun hEq => hne (by rw [hEq])
  simp only [yrAsc, decide_eq_true_eq]
  omega

lemma map_year_yearlyStatsBase (data : List SaleRecord) :
    (yearlyStatsBase data).map YearlyData.year = jsKeys (data.map yearKey) yearIdx := by
  simp only [yearlyStatsBase, jsGroupBy, List.map_map]
  exact List.map_id _

lemma map_year_withGrowth (l : List YearlyData) :
    (withGrowth l).map YearlyData.year = l.map YearlyData.year := by
  have h1 : (withGrowth l).map YearlyData.year
      = ((withGrowth l).map stripG).map (fun s => s.1) := by
    rw [List.map_map]; rfl
  rw [h1, map_stripG_withGrowth, List.map_map]; rfl

lemma map_year_yearlyData (data : List SaleRecord) :
    (yearlyData data).map YearlyData.year = jsKeys (data.map yearKey) yearIdx := by
  rw [yearlyData, map_year_withGrowth, map_year_yearlyStatsBase]

lemma map_sales_withGrowth (l : List YearlyData) :
    (withGrowth l).map YearlyData.sales = l.map YearlyData.sales := by
  have h1 : (withGrowth l).map YearlyData.sales
      = ((withGrowth l).map stripG).map (fun s => s.2.1) := by
    rw [List.map_map]; rfl
  rw [h1, map_stripG_withGrowth, List.map_map]; rfl

lemma map_year_trends (data : List SaleRecord) :
    (subCategoryTrendsData data).map TrendRow.year = jsKeys (data.map yearKey) yearIdx := by
  simp only [subCategoryTrendsData, jsGroupBy, List.map_map]
  exact List.map_id _

lemma map_name_subGroups (data : List SaleRecord) :
    (subGroups data).map SubCategoryData.name
      = jsKeys (data.map SaleRecord.subCategory) strIdx := by
  simp only [subGroups, jsGroupBy, List.map_map]
  exact List.map_id _

lemma jsKeys_ne_nil {κ : Type} [DecidableEq κ] {l : List κ} (idx : κ → Option Nat)
    (h : l ≠ []) : jsKeys l idx ≠ [] := by
  cases l with
  | nil => exact absurd rfl h
  | cons a t =>
      intro hnil
      have hmem : a ∈ jsKeys (a :: t) idx := (mem_jsKeys _ _ _).2 (by simp)
      rw [hnil] at hmem
      exact List.not_mem_nil a hmem

lemma yearlyData_ne_nil {data : List SaleRecord} (h : data ≠ []) :
    yearlyData data ≠ [] := by
  intro hnil
  have hmap := map_year_yearlyData data
  rw [hnil] at hmap
  exact jsKeys_ne_nil yearIdx (by simpa using h) hmap.symm

lemma jdiv_of_ne (a b : ℚ) (h : b ≠ 0) : jdiv a b = JNum.num (a / b) := by
  simp [jdiv, h]

lemma growthOf_of_ne (cur prev : ℚ) (h : prev ≠ 0) :
    growthOf cur prev = JNum.num ((cur - prev) / prev * 100) := by
  simp [growthOf, jdiv, jmul100, h]

lemma growthOf_zero (cur : ℚ) :
    growthOf cur 0
      = (if cur = 0 then JNum.nan else if 0 < cur then JNum.posInf else JNum.negInf) := by
  unfold growthOf jdiv
  rw [sub_zero]
  by_cases h0 : cur = 0
  · simp [h0, jmul100]
  · by_cases hpos : 0 < cur
    · simp [h0, hpos, jmul100]
    · simp [h0, hpos, jmul100]

lemma mem_yearlyStatsBase {data : List SaleRecord} {y : YearlyData}
    (hy : y ∈ yearlyStatsBase data) :
    y.salesGrowth = JNum.num 0 ∧ y.profitGrowth = JNum.num 0
      ∧ 1 ≤ y.orders ∧ y.avgOrderValue = jdiv y.sales (y.orders : ℚ) := by
  unfold yearlyStatsBase at hy
  rcases List.mem_map.1 hy with ⟨g, hg, rfl⟩
  refine ⟨rfl, rfl, ?_, rfl⟩
  have hne := jsGroupBy_group_ne_nil hg
  simpa [Nat.one_le_iff_ne_zero, List.length_eq_zero] using hne

/-! Concrete inputs used by the counterexamples and witnesses below. -/

/-- Two valid-date records whose first year has zero total sales and profit. -/
def exC2 : List SaleRecord :=
  [⟨some 2020, 0, 0, "Chairs"⟩, ⟨some 2021, 100, 5, "Chairs"⟩]

/-- C1.  The source computes `avgOrderValue = _.sumBy(data, 'Sales') / data.length`
with no emptiness guard, so the empty collection yields `0 / 0 = NaN` and no
error condition: the claimed `EmptyDatasetError` does not exist in the code. -/
theorem C1_cex : (totalMetrics []).avgOrderValue = JNum.nan := by
  norm_num [totalMetrics, sumSales, sumProfit, jdiv]

/-- C1 (amended).  For the empty input collection the whole-dataset aggregate
does not fail: it returns zero totals, order count `0`, and
`avgOrderValue = 0 / 0 = NaN`, which flows to the consuming layer unreported. -/
theorem C1_amended : totalMetrics [] = ⟨0, 0, 0, JNum.nan⟩ := by
  norm_num [totalMetrics, sumSales, sumProfit, jdiv]

/-- C2.  With the 2020 totals equal to zero, the 2021 growth values are the
JavaScript `Infinity`, not a numeric or sentinel value. -/
theorem C2_cex : (yearlyData exC2).map YearlyData.salesGrowth = [JNum.num 0, JNum.posInf] := by
  norm_num [yearlyData, yearlyStatsBase, withGrowth, withGrowthAux, jsGroupBy, jsKeys,
    firstSeen, yearIdx, yearKey, sumSales, sumProfit, growthOf, jdiv, jmul100,
    List.insertionSort, List.orderedInsert, List.filter_cons, exC2]

/-- C2 (amended).  Whenever the preceding entry's total sales (resp. profit) is
zero, the Yearly Summary Builder stores `NaN` (current total also zero) or
`±Infinity` (current total nonzero) as the growth value — never a finite
number and never a documented sentinel. -/
theorem C2_amended (data : List SaleRecord) :
    List.Chain' (fun p c =>
      (p.sales = 0 → c.salesGrowth
          = (if c.sales = 0 then JNum.nan else if 0 < c.sales then JNum.posInf else JNum.negInf))
      ∧ (p.profit = 0 → c.profitGrowth
          = (if c.profit = 0 then JNum.nan else if 0 < c.profit then JNum.posInf else JNum.negInf)))
      (yearlyData data) := by
  refine (chain_Rgrow_withGrowth (yearlyStatsBase data)).imp ?_
  intro p c hr
  constructor
  · intro hp; rw [hr.1, hp, growthOf_zero]
  · intro hp; rw [hr.2, hp, growthOf_zero]

/-- C2 witness: the amended statement evaluated on the two-record input. -/
theorem C2_witness :
    List.Chain' (fun p c =>
      (p.sales = 0 → c.salesGrowth
          = (if c.sales = 0 then JNum.nan else if 0 < c.sales then JNum.posInf else JNum.negInf))
      ∧ (p.profit = 0 → c.profitGrowth
          = (if c.profit = 0 then JNum.nan else if 0 < c.profit then JNum.posInf else JNum.negInf)))
      (yearlyData exC2) :=
  C2_amended exC2

/-- C7.  Grouping by year partitions the records: the yearly totals sum to the
whole-dataset sales total for every non-empty record set. -/
theorem C7_thm (data : List SaleRecord) (_hne : data ≠ []) :
    ((yearlyData data).map YearlyData.sales).sum = sumSales data := by
  have h1 : (yearlyData data).map YearlyData.sales
      = (jsKeys (data.map yearKey) yearIdx).map
          (fun key => sumSales (data.filter (fun a => decide (yearKey a = key)))) := by
    rw [yearlyData, map_sales_withGrowth]
    simp only [yearlyStatsBase, jsGroupBy, List.map_map]
    rfl
  rw [h1]
  have hcov : ∀ a ∈ data, yearKey a ∈ jsKeys (data.map yearKey) yearIdx :=
    fun a ha => (mem_jsKeys _ _ _).2 (List.mem_map.2 ⟨a, ha, rfl⟩)
  exact sum_over_groups yearKey SaleRecord.sales _ data (nodup_jsKeys _ _) hcov

/-- One-record input for the C7 witness. -/
def wC7 : List SaleRecord := [⟨some 2020, 7, 1, "Chairs"⟩]

/-- C7 witness: the partition property evaluated on a concrete record set. -/
theorem C7_witness :
    wC7 ≠ [] ∧ ((yearlyData wC7).map YearlyData.sales).sum = sumSales wC7 :=
  ⟨by simp [wC7], C7_thm wC7 (by simp [wC7])⟩

/-- C8.  The whole-dataset aggregate returns the record count, the summed
sales, the summed profit, and — on non-empty input — the finite average
`totalSales / totalOrders`. -/
theorem C8_thm (data : List SaleRecord) (hne : data ≠ []) :
    (totalMetrics data).totalOrders = data.length
    ∧ (totalMetrics data).totalSales = sumSales data
    ∧ (totalMetrics data).totalProfit = sumProfit data
    ∧ (totalMetrics data).avgOrderValue = JNum.num (sumSales data / (data.length : ℚ)) := by
  have hlen0 : data.length ≠ 0 := fun h => hne (List.length_eq_zero.1 h)
  have hlen : ((data.length : ℚ)) ≠ 0 := Nat.cast_ne_zero.2 hlen0
  exact ⟨rfl, rfl, rfl, jdiv_of_ne _ _ hlen⟩

/-- One-record input for the C8 witness. -/
def wC8 : List SaleRecord := [⟨some 2020, 7, 1, "Chairs"⟩]

/-- C8 witness: the aggregate contract evaluated on a concrete record set. -/
theorem C8_witness :
    wC8 ≠ []
    ∧ ((totalMetrics wC8).totalOrders = wC8.length
        ∧ (totalMetrics wC8).totalSales = sumSales wC8
        ∧ (totalMetrics wC8).totalProfit = sumProfit wC8
        ∧ (totalMetrics wC8).avgOrderValue = JNum.num (sumSales wC8 / (wC8.length : ℚ))) :=
  ⟨by simp [wC8], C8_thm wC8 (by simp [wC8])⟩

/-- Records of two negative years (valid extended-ISO dates), inserted with
the later year first: their object keys `"-1"`, `"-3"` are not array
indices, so they enumerate in insertion order, not ascending. -/
def exC3 : List SaleRecord :=
  [⟨some (-1), 100, 10, "Chairs"⟩, ⟨some (-3), 50, 5, "Chairs"⟩]

/-- C3.  On the negative-year input the builder output is `[-1, -3]`, so the
earliest year present (`-3`) is not the first element and its sales growth is
computed from year `-1` (it equals `-50`, not the baseline `0`). -/
theorem C3_cex : ¬ (∀ y ∈ yearlyData exC3,
    (∀ z ∈ yearlyData exC3, z.year = y.year ∨ yrAsc y.year z.year = true) →
      y.salesGrowth = JNum.num 0) := by
  norm_num [yearlyData, yearlyStatsBase, withGrowth, withGrowthAux, jsGroupBy, jsKeys,
    firstSeen, yearIdx, yearKey, sumSales, sumProfit, growthOf, jdiv, jmul100,
    List.insertionSort, List.orderedInsert, List.filter_cons, exC3, yrAsc]

/-- C3 (amended).  When every record's year is a non-negative integer below
`2^32 - 1` (so every year key is an array index and the object enumerates
them ascending), the non-empty output starts with the earliest year, whose
growth fields hold the baseline `0`; the output is strictly ascending by
year; and every later entry's growth equals
`(total - prevTotal) / prevTotal * 100` relative to the immediately
preceding year of the sorted output, whenever that preceding total is
nonzero. -/
theorem C3_amended (data : List SaleRecord)
    (hIdx : ∀ r ∈ data, (yearIdx (yearKey r)).isSome = true) (hne : data ≠ []) :
    yearlyData data ≠ []
    ∧ (∀ h0 ∈ (yearlyData data).head?,
        h0.salesGrowth = JNum.num 0 ∧ h0.profitGrowth = JNum.num 0)
    ∧ List.Chain' (fun a b => yrAsc a.year b.year = true) (yearlyData data)
    ∧ List.Chain' (fun p c =>
        (p.sales ≠ 0 → c.salesGrowth = JNum.num ((c.sales - p.sales) / p.sales * 100))
        ∧ (p.profit ≠ 0 → c.profitGrowth = JNum.num ((c.profit - p.profit) / p.profit * 100)))
        (yearlyData data) := by
  refine ⟨yearlyData_ne_nil hne, ?_, ?_, ?_⟩
  · intro h0 hh0
    rw [yearlyData, head?_withGrowth] at hh0
    have hmem := List.mem_of_mem_head? hh0
    exact ⟨(mem_yearlyStatsBase hmem).1, (mem_yearlyStatsBase hmem).2.1⟩
  · have hkeys : ∀ x ∈ data.map yearKey, (yearIdx x).isSome := by
      intro x hx
      rcases List.mem_map.1 hx with ⟨r, hr, rfl⟩
      exact hIdx r hr
    have hchain := chain_yrAsc_jsKeys (data.map yearKey) hkeys
    rw [← map_year_yearlyData] at hchain
    exact (List.chain'_map YearlyData.year).1 hchain
  · refine (chain_Rgrow_withGrowth (yearlyStatsBase data)).imp ?_
    intro p c hr
    exact ⟨fun hp => by rw [hr.1, growthOf_of_ne _ _ hp],
      fun hp => by rw [hr.2, growthOf_of_ne _ _ hp]⟩

/-- Two ordinary-year records for the C3 witness. -/
def wC3 : List SaleRecord :=
  [⟨some 2020, 100, 10, "Chairs"⟩, ⟨some 2021, 150, 20, "Tables"⟩]

/-- C3 witness: the amended statement instantiated on a concrete record set
with valid non-negative years. -/
theorem C3_witness :
    (∀ r ∈ wC3, (yearIdx (yearKey r)).isSome = true) ∧ wC3 ≠ []
    ∧ (yearlyData wC3 ≠ []
        ∧ (∀ h0 ∈ (yearlyData wC3).head?,
            h0.salesGrowth = JNum.num 0 ∧ h0.profitGrowth = JNum.num 0)
        ∧ List.Chain' (fun a b => yrAsc a.year b.year = true) (yearlyData wC3)
        ∧ List.Chain' (fun p c =>
            (p.sales ≠ 0 → c.salesGrowth = JNum.num ((c.sales - p.sales) / p.sales * 100))
            ∧ (p.profit ≠ 0 →
                c.profitGrowth = JNum.num ((c.profit - p.profit) / p.profit * 100)))
            (yearlyData wC3)) :=
  ⟨by decide, by simp [wC3], C3_amended wC3 (by decide) (by simp [wC3])⟩

/-- The negative-year input again, for the C4 counterexample. -/
def exC4 : List SaleRecord :=
  [⟨some (-1), 100, 10, "Chairs"⟩, ⟨some (-3), 50, 5, "Chairs"⟩]

/-- C4.  On the negative-year input neither the yearly summaries nor the
trend rows come out ascending by year: both enumerate `[-1, -3]`. -/
theorem C4_cex :
    ¬ List.Chain' (fun a b => yrAsc a b = true) ((yearlyData exC4).map YearlyData.year)
    ∧ ¬ List.Chain' (fun a b => yrAsc a b = true)
        ((subCategoryTrendsData exC4).map TrendRow.year) := by
  constructor
  · norm_num [yearlyData, yearlyStatsBase, withGrowth, withGrowthAux, jsGroupBy, jsKeys,
      firstSeen, yearIdx, yearKey, sumSales, sumProfit, growthOf, jdiv, jmul100,
      List.insertionSort, List.orderedInsert, List.filter_cons, exC4, yrAsc,
      List.chain'_cons, List.chain'_singleton]
  · norm_num [subCategoryTrendsData, jsGroupBy, jsKeys, firstSeen, yearIdx, yearKey,
      strIdx, isCanonicalDec, decValue, sumSales, List.insertionSort, List.orderedInsert,
      List.filter_cons, exC4, yrAsc, List.chain'_cons, List.chain'_singleton]

/-- C4 (amended).  When every record's year is a non-negative integer below
`2^32 - 1`, both the yearly summary list and the trend-row list come out
strictly ascending by year — not by an explicit sort, but because the year
keys are array indices, which the object enumerates in ascending order
before the growth pass reads adjacent elements. -/
theorem C4_amended (data : List SaleRecord)
    (hIdx : ∀ r ∈ data, (yearIdx (yearKey r)).isSome = true) :
    List.Chain' (fun a b => yrAsc a b = true) ((yearlyData data).map YearlyData.year)
    ∧ List.Chain' (fun a b => yrAsc a b = true)
        ((subCategoryTrendsData data).map TrendRow.year) := by
  have hkeys : ∀ x ∈ data.map yearKey, (yearIdx x).isSome := by
    intro x hx
    rcases List.mem_map.1 hx with ⟨r, hr, rfl⟩
    exact hIdx r hr
  have hchain := chain_yrAsc_jsKeys (data.map yearKey) hkeys
  exact ⟨by rw [map_year_yearlyData]; exact hchain,
    by rw [map_year_trends]; exact hchain⟩

/-- Two ordinary-year records for the C4 witness. -/
def wC4 : List SaleRecord :=
  [⟨some 2020, 100, 10, "Chairs"⟩, ⟨some 2021, 150, 20, "Tables"⟩]

/-- C4 witness: the amended statement instantiated on a concrete record set
with valid non-negative years. -/
theorem C4_witness :
    (∀ r ∈ wC4, (yearIdx (yearKey r)).isSome = true)
    ∧ (List.Chain' (fun a b => yrAsc a b = true) ((yearlyData wC4).map YearlyData.year)
        ∧ List.Chain' (fun a b => yrAsc a b = true)
            ((subCategoryTrendsData wC4).map TrendRow.year)) :=
  ⟨by decide, C4_amended wC4 (by decide)⟩

/-- Two sub-categories with tied total sales, one of them named by the
canonical array-index string `"12"`. -/
def exC5 : List SaleRecord :=
  [⟨some 2020, 50, 0, "Chairs"⟩, ⟨some 2020, 50, 1, "12"⟩]

/-- C5.  The groups are first encountered in the order `Chairs`, `12` and
their totals tie at `50`, yet the output lists `12` first: the `"12"` key is
an array index, so the object enumerates it ahead of `Chairs` before the
stable sort runs, and the tie preserves that order instead of first-seen
order. -/
theorem C5_cex :
    firstSeen (exC5.map SaleRecord.subCategory) = ["Chairs", "12"]
    ∧ (subCategoryStats exC5).map (fun s => (s.name, s.value)) = [("12", 50), ("Chairs", 50)]
    ∧ ¬ List.Sublist ["Chairs", "12"] ((subCategoryStats exC5).map SubCategoryData.name) := by
  refine ⟨?_, ?_, ?_⟩
  · norm_num [firstSeen, exC5, List.filter_cons,
      show ("12" : String) ≠ "Chairs" from by decide]
  · norm_num [subCategoryStats, subGroups, jsGroupBy, jsKeys, firstSeen, strIdx,
      isCanonicalDec, decValue, sumSales, sumProfit, List.insertionSort, List.orderedInsert,
      List.filter_cons, exC5,
      show ("12" : String) ≠ "Chairs" from by decide,
      show ("Chairs" : String) ≠ "12" from by decide]
  · have hnames : (subCategoryStats exC5).map SubCategoryData.name = ["12", "Chairs"] := by
      norm_num [subCategoryStats, subGroups, jsGroupBy, jsKeys, firstSeen, strIdx,
        isCanonicalDec, decValue, sumSales, sumProfit, List.insertionSort,
        List.orderedInsert, List.filter_cons, exC5,
        show ("12" : String) ≠ "Chairs" from by decide,
        show ("Chairs" : String) ≠ "12" from by decide]
    rw [hnames]
    decide

/-- C5 (amended).  The sub-category summary list is sorted non-increasing by
total sales for every input, and the sort is stable with respect to the
group enumeration order; that enumeration order is the first-encountered
order exactly when no sub-category name is a canonical array-index string
(otherwise such names enumerate first, in numeric order). -/
theorem C5_amended (data : List SaleRecord) :
    List.Chain' (fun a b => b.value ≤ a.value) (subCategoryStats data)
    ∧ (∀ x y : SubCategoryData, x.value = y.value →
        List.Sublist [x, y] (subGroups data) → List.Sublist [x, y] (subCategoryStats data))
    ∧ ((∀ r ∈ data, strIdx r.subCategory = none) →
        (subGroups data).map SubCategoryData.name
          = firstSeen (data.map SaleRecord.subCategory)) := by
  haveI : IsTotal SubCategoryData (fun a b => b.value ≤ a.value) :=
    ⟨fun a b => le_total b.value a.value⟩
  haveI : IsTrans SubCategoryData (fun a b => b.value ≤ a.value) :=
    ⟨fun a b c hab hbc => le_trans hbc hab⟩
  refine ⟨?_, ?_, ?_⟩
  · exact List.Pairwise.chain' (List.sorted_insertionSort _ _)
  · intro x y hxy hsub
    exact List.pair_sublist_insertionSort (le_of_eq hxy.symm) hsub
  · intro hno
    rw [map_name_subGroups, jsKeys_all_strings]
    intro x hx
    rcases List.mem_map.1 hx with ⟨r, hr, rfl⟩
    exact hno r hr

/-- Two tied sub-categories with ordinary names for the C5 witness. -/
def wC5 : List SaleRecord :=
  [⟨some 2020, 50, 0, "Chairs"⟩, ⟨some 2020, 50, 1, "Tables"⟩]

/-- C5 witness: the amended statement instantiated on two tied groups with
non-index names, whose first-seen order survives into the sorted output. -/
theorem C5_witness :
    (∀ r ∈ wC5, strIdx r.subCategory = none)
    ∧ (⟨"Chairs", 50, 0, 1⟩ : SubCategoryData).value
        = (⟨"Tables", 50, 1, 1⟩ : SubCategoryData).value
    ∧ List.Sublist [⟨"Chairs", 50, 0, 1⟩, (⟨"Tables", 50, 1, 1⟩ : SubCategoryData)]
        (subGroups wC5)
    ∧ List.Chain' (fun a b => b.value ≤ a.value) (subCategoryStats wC5)
    ∧ List.Sublist [⟨"Chairs", 50, 0, 1⟩, (⟨"Tables", 50, 1, 1⟩ : SubCategoryData)]
        (subCategoryStats wC5)
    ∧ (subGroups wC5).map SubCategoryData.name = firstSeen (wC5.map SaleRecord.subCategory) := by
  have hgroups : subGroups wC5
      = [⟨"Chairs", 50, 0, 1⟩, (⟨"Tables", 50, 1, 1⟩ : SubCategoryData)] := by
    norm_num [subGroups, jsGroupBy, jsKeys, firstSeen,
      sumSales, sumProfit, List.insertionSort, List.orderedInsert, List.filter_cons, wC5,
      show strIdx "Chairs" = none from by decide,
      show strIdx "Tables" = none from by decide,
      show ("Tables" : String) ≠ "Chairs" from by decide,
      show ("Chairs" : String) ≠ "Tables" from by decide]
  have hsub : List.Sublist [⟨"Chairs", 50, 0, 1⟩, (⟨"Tables", 50, 1, 1⟩ : SubCategoryData)]
      (subGroups wC5) := by
    rw [hgroups]
  exact ⟨by decide, rfl, hsub, (C5_amended wC5).1,
    (C5_amended wC5).2.1 _ _ rfl hsub, (C5_amended wC5).2.2 (by decide)⟩

/-- C6.  A trend row carries a sub-category key exactly when some record of
that row's year has that sub-category: rows are sparse, and sub-categories
present only in other years are omitted rather than materialised as zero. -/
theorem C6_thm (data : List SaleRecord) (row : TrendRow)
    (hrow : row ∈ subCategoryTrendsData data) (name : String) :
    (∃ q, (name, q) ∈ row.entries) ↔ ∃ r ∈ data, yearKey r = row.year ∧ r.subCategory = name := by
  unfold subCategoryTrendsData at hrow
  rcases List.mem_map.1 hrow with ⟨g, hg, rfl⟩
  rcases mem_jsGroupBy hg with ⟨_, hgrp⟩
  constructor
  · rintro ⟨q, hq⟩
    rcases List.mem_map.1 hq with ⟨sg, hsg, heq⟩
    have hname : sg.1 = name := congrArg Prod.fst heq
    have hmem1 : sg.1 ∈ g.2.map SaleRecord.subCategory := (mem_jsGroupBy hsg).1
    rw [hname] at hmem1
    rcases List.mem_map.1 hmem1 with ⟨r, hrg, hrname⟩
    rw [hgrp, List.mem_filter] at hrg
    refine ⟨r, hrg.1, ?_, hrname⟩
    simpa using hrg.2
  · rintro ⟨r, hrd, hyr, hsc⟩
    have hrg : r ∈ g.2 := by
      rw [hgrp, List.mem_filter]
      exact ⟨hrd, by simpa using hyr⟩
    have hnames : name ∈ g.2.map SaleRecord.subCategory := List.mem_map.2 ⟨r, hrg, hsc⟩
    have hkeys2 : name ∈ jsKeys (g.2.map SaleRecord.subCategory) strIdx :=
      (mem_jsKeys _ _ _).2 hnames
    refine ⟨sumSales (g.2.filter (fun a => decide (a.subCategory = name))), ?_⟩
    refine List.mem_map.2
      ⟨(name, g.2.filter (fun a => decide (a.subCategory = name))), ?_, rfl⟩
    unfold jsGroupBy
    exact List.mem_map.2 ⟨name, hkeys2, rfl⟩

/-- The worked example of the specification, for the C6 witness. -/
def wC6 : List SaleRecord :=
  [⟨some 2020, 100, 10, "Chairs"⟩, ⟨some 2020, 50, 5, "Tables"⟩,
    ⟨some 2021, 150, 20, "Chairs"⟩]

/-- The 2021 trend row of the worked example: no `Tables` key. -/
def wC6row : TrendRow := ⟨some 2021, [("Chairs", 150)]⟩

/-- C6 witness: on the worked example, the 2021 row has a `Tables` entry
exactly when some 2021 record is a `Tables` sale — and neither side holds. -/
theorem C6_witness :
    wC6row ∈ subCategoryTrendsData wC6
    ∧ ((∃ q, ("Tables", q) ∈ wC6row.entries)
        ↔ ∃ r ∈ wC6, yearKey r = wC6row.year ∧ r.subCategory = "Tables") := by
  have heval : subCategoryTrendsData wC6
      = [⟨some 2020, [("Chairs", 100), ("Tables", 50)]⟩, wC6row] := by
    norm_num [subCategoryTrendsData, jsGroupBy, jsKeys, firstSeen, yearIdx, yearKey,
      sumSales, List.insertionSort, List.orderedInsert, List.filter_cons, wC6, wC6row,
      show strIdx "Chairs" = none from by decide,
      show strIdx "Tables" = none from by decide,
      show ("Tables" : String) ≠ "Chairs" from by decide,
      show ("Chairs" : String) ≠ "Tables" from by decide]
  have hrow : wC6row ∈ subCategoryTrendsData wC6 := by
    rw [heval]
    simp
  exact ⟨hrow, C6_thm wC6 wC6row hrow "Tables"⟩

/-- One record with an unparseable order date. -/
def exC9 : List SaleRecord := [⟨none, 10, 1, "Chairs"⟩]

/-- C9.  The row whose date fails to parse is neither rejected nor excluded:
it is counted in the aggregate, and the year-grouped builders file it under
a group whose year is the `NaN` key. -/
theorem C9_cex :
    (yearlyData exC9).map (fun y => (y.year, y.orders)) = [((none : Option Int), 1)]
    ∧ (totalMetrics exC9).totalOrders = 1
    ∧ (subCategoryTrendsData exC9).map TrendRow.year = [(none : Option Int)] := by
  refine ⟨?_, rfl, ?_⟩
  · norm_num [yearlyData, yearlyStatsBase, withGrowth, withGrowthAux, jsGroupBy, jsKeys,
      firstSeen, yearIdx, yearKey, sumSales, sumProfit, List.insertionSort,
      List.orderedInsert, List.filter_cons, exC9]
  · norm_num [subCategoryTrendsData, jsGroupBy, jsKeys, firstSeen, yearIdx, yearKey,
      sumSales, List.insertionSort, List.orderedInsert, List.filter_cons, exC9,
      show strIdx "Chairs" = none from by decide]

/-- C9 (amended).  A record with an unparseable date is included, not
rejected or excluded: the whole-dataset aggregate counts every row, the
yearly builder and the trend builder each produce a (non-empty) group under
the `NaN` year key, and the sub-category builder keeps the record's group;
the aggregation itself is total, so no exception is raised. -/
theorem C9_amended (data : List SaleRecord) (r : SaleRecord) (hr : r ∈ data)
    (hbad : r.orderDateYear = none) :
    (∃ y ∈ yearlyData data, y.year = none ∧ 1 ≤ y.orders)
    ∧ (totalMetrics data).totalOrders = data.length
    ∧ (∃ s ∈ subCategoryStats data, s.name = r.subCategory)
    ∧ (∃ row ∈ subCategoryTrendsData data, row.year = none) := by
  have hkeymem : (none : Option Int) ∈ jsKeys (data.map yearKey) yearIdx :=
    (mem_jsKeys _ _ _).2 (List.mem_map.2 ⟨r, hr, by simp [yearKey, hbad]⟩)
  refine ⟨?_, rfl, ?_, ?_⟩
  · have hmem : (none : Option Int) ∈ (yearlyData data).map YearlyData.year := by
      rw [map_year_yearlyData]; exact hkeymem
    rcases List.mem_map.1 hmem with ⟨y, hy, hyr⟩
    refine ⟨y, hy, hyr, ?_⟩
    rcases mem_withGrowth_stripG hy with ⟨y0, hy0, hstrip⟩
    have hord := (mem_yearlyStatsBase hy0).2.2.1
    have horders : y0.orders = y.orders := congrArg (fun s => s.2.2.2.1) hstrip
    omega
  · have hname : r.subCategory ∈ (subGroups data).map SubCategoryData.name := by
      rw [map_name_subGroups]
      exact (mem_jsKeys _ _ _).2 (List.mem_map.2 ⟨r, hr, rfl⟩)
    rcases List.mem_map.1 hname with ⟨s, hs, hsname⟩
    exact ⟨s, (List.mem_insertionSort _).2 hs, hsname⟩
  · have hmem : (none : Option Int) ∈ (subCategoryTrendsData data).map TrendRow.year := by
      rw [map_year_trends]; exact hkeymem
    rcases List.mem_map.1 hmem with ⟨row, hrow, hyr⟩
    exact ⟨row, hrow, hyr⟩

/-- A malformed-date record next to a valid one, for the C9 witness. -/
def wC9 : List SaleRecord :=
  [⟨none, 10, 1, "Chairs"⟩, ⟨some 2020, 5, 2, "Tables"⟩]

/-- C9 witness: the amended statement instantiated on a record set holding
one unparseable-date row. -/
theorem C9_witness :
    (⟨none, 10, 1, "Chairs"⟩ : SaleRecord) ∈ wC9
    ∧ (⟨none, 10, 1, "Chairs"⟩ : SaleRecord).orderDateYear = none
    ∧ ((∃ y ∈ yearlyData wC9, y.year = none ∧ 1 ≤ y.orders)
        ∧ (totalMetrics wC9).totalOrders = wC9.length
        ∧ (∃ s ∈ subCategoryStats wC9, s.name
            = (⟨none, 10, 1, "Chairs"⟩ : SaleRecord).subCategory)
        ∧ (∃ row ∈ subCategoryTrendsData wC9, row.year = none)) :=
  ⟨List.mem_cons_self _ _, rfl,
    C9_amended wC9 ⟨none, 10, 1, "Chairs"⟩ (List.mem_cons_self _ _) rfl⟩

/-- C10.  Every year group and every sub-category group holds at least one
record, so `orderCount ≥ 1` for every summary row and the per-group average
`totalSales / orderCount` is a finite number — unlike the whole-dataset
average, whose denominator can be zero. -/
theorem C10_thm (data : List SaleRecord) :
    (∀ y ∈ yearlyData data, 1 ≤ y.orders ∧ ∃ q, y.avgOrderValue = JNum.num q)
    ∧ (∀ s ∈ subCategoryStats data, 1 ≤ s.orders) := by
  constructor
  · intro y hy
    rcases mem_withGrowth_stripG hy with ⟨y0, hy0, hstrip⟩
    rcases mem_yearlyStatsBase hy0 with ⟨_, _, hord, havg⟩
    have horders : y0.orders = y.orders := congrArg (fun s => s.2.2.2.1) hstrip
    have hsales : y0.sales = y.sales := congrArg (fun s => s.2.1) hstrip
    have havg2 : y0.avgOrderValue = y.avgOrderValue := congrArg (fun s => s.2.2.2.2) hstrip
    have hord2 : 1 ≤ y.orders := horders ▸ hord
    refine ⟨hord2, ⟨y.sales / (y.orders : ℚ), ?_⟩⟩
    rw [← havg2, havg, hsales, horders]
    exact jdiv_of_ne _ _ (Nat.cast_ne_zero.2 (by omega))
  · intro s hs
    have hs2 : s ∈ subGroups data := (List.mem_insertionSort _).1 hs
    unfold subGroups at hs2
    rcases List.mem_map.1 hs2 with ⟨g, hg, rfl⟩
    have hnil := jsGroupBy_group_ne_nil hg
    simpa [Nat.one_le_iff_ne_zero, List.length_eq_zero] using hnil

/-- One-record input for the C10 witness. -/
def wC10 : List SaleRecord := [⟨some 2020, 10, 2, "Chairs"⟩]

/-- The single yearly summary of the C10 witness input. -/
def wC10year : YearlyData := ⟨some 2020, 10, 2, 1, JNum.num 10, JNum.num 0, JNum.num 0⟩

/-- The single sub-category summary of the C10 witness input. -/
def wC10sub : SubCategoryData := ⟨"Chairs", 10, 2, 1⟩

/-- C10 witness: the group-size and finite-average facts instantiated on a
concrete one-record input. -/
theorem C10_witness :
    wC10year ∈ yearlyData wC10
    ∧ wC10sub ∈ subCategoryStats wC10
    ∧ (1 ≤ wC10year.orders ∧ ∃ q, wC10year.avgOrderValue = JNum.num q)
    ∧ 1 ≤ wC10sub.orders := by
  have h1 : yearlyData wC10 = [wC10year] := by
    norm_num [yearlyData, yearlyStatsBase, withGrowth, withGrowthAux, jsGroupBy, jsKeys,
      firstSeen, yearIdx, yearKey, sumSales, sumProfit, jdiv, List.insertionSort,
      List.orderedInsert, List.filter_cons, wC10, wC10year]
  have h2 : subCategoryStats wC10 = [wC10sub] := by
    norm_num [subCategoryStats, subGroups, jsGroupBy, jsKeys, firstSeen, sumSales,
      sumProfit, List.insertionSort, List.orderedInsert, List.filter_cons, wC10, wC10sub,
      show strIdx "Chairs" = none from by decide]
  have hm1 : wC10year ∈ yearlyData wC10 := by rw [h1]; simp
  have hm2 : wC10sub ∈ subCategoryStats wC10 := by rw [h2]; simp
  exact ⟨hm1, hm2, (C10_thm wC10).1 wC10year hm1, (C10_thm wC10).2 wC10sub hm2⟩
